/-
Verification of the EINO streaming service's ingest-to-playback pipeline.

This file gives a shallow embedding, in Lean 4, of the parts of the code
that the specification's claims are about:

* `StorageService.upload_chunk` / `finalize_upload` and the HTTP endpoint
  `upload_chunk` (src/app/services/storage/storage_service.py,
  src/app/api/endpoints/upload.py);
* `LocalService.combine_chunks` and `GCSService.combine_chunks`
  (src/app/services/storage/local_service.py, gcs_service.py);
* `ManifestGenerator.generate_hls_master_playlist`,
  `generate_hls_variant_playlist`, `generate_hls_live_playlist` and the
  DASH segment-timeline portion of `generate_dash_mpd`
  (src/app/services/streaming/manifest_generator.py);
* the variant/adaptation-set assembly of
  `AdaptiveStreamingService.generate_manifests`
  (src/app/services/streaming/adaptive_streaming.py);
* the DASH segment-collection loop of `Transcoder._transcode_for_dash`
  (src/app/services/processing/transcoder.py);
* the sweeps `CleanupWorker.recover_stalled_processing` and
  `CleanupWorker.cleanup_expired_content` (src/workers/cleanup_worker.py).

Python dictionaries holding video metadata become a structure; the blob
store becomes an association list from paths to byte lists; exceptions
become `Except`/`Option` results; the float `upload_progress` becomes a
rational; HLS segment durations (floats in seconds) are embedded at
microsecond precision as naturals, so Python's `f"{d:.6f}"` formatting is
exact.
-/

import Mathlib

namespace Stream1

/-! ## Video metadata and the chunk-upload state

Embedding of the metadata dictionary created by
`StorageService.initialize_upload` (storage_service.py lines 76-91),
restricted to the fields read or written by the chunk-upload path. -/

structure VideoMeta where
  owner_id : Option String
  status : String
  total_chunks : Nat
  chunks_received : Nat
  upload_progress : ℚ
  output_path : Option String
  deriving Repr, DecidableEq

/-- The metadata document (if present) together with the stored chunk
blobs, keyed by chunk index (the path `videos/{id}/chunks/chunk_{i}` is
determined by the index). The association list has at most one entry per
index; `save_file` on an existing path overwrites. -/
structure UploadState where
  meta : Option VideoMeta
  chunks : List (Nat × List Nat)
  deriving Repr, DecidableEq

/-- Errors raised by `StorageService.upload_chunk`: `VideoNotFoundError`
when the metadata document is missing, and `UploadError` for the
permission, index and total-chunks failures (distinguished here by which
check raised them). -/
inductive UploadErr where
  | videoNotFound
  | forbidden
  | badIndex
  | badTotal
  deriving Repr, DecidableEq

/-- Python truthiness of the `user_id` argument (`if user_id and ...`):
`None` and the empty string are falsy. -/
def pyTruthy : Option String → Bool
  | none => false
  | some s => s ≠ ""

/-- Overwriting insert into the chunk store: the embedding of
`save_file` on the path `videos/{id}/chunks/chunk_{index}`. -/
def setChunk : List (Nat × List Nat) → Nat → List Nat → List (Nat × List Nat)
  | [], i, d => [(i, d)]
  | (j, b) :: rest, i, d =>
      if j = i then (i, d) :: rest else (j, b) :: setChunk rest i d

/-- Lookup in the chunk store. -/
def getChunk : List (Nat × List Nat) → Nat → Option (List Nat)
  | [], _ => none
  | (j, b) :: rest, i => if j = i then some b else getChunk rest i

/-- Embedding of `StorageService.upload_chunk`
(storage_service.py lines 114-178).  In order: metadata lookup
(`VideoNotFoundError` if absent); owner check only when `user_id` is
truthy; `total_chunks` adopted from the argument when the stored value is
0; bounds check `chunk_index >= total_chunks`; total-mismatch check; then
the chunk blob is written and `chunks_received` is incremented
unconditionally.  The returned rational is the new `upload_progress`.
Error paths precede every write, so an error leaves the state unchanged. -/
def upload_chunk (s : UploadState) (chunk_index total_chunks : Nat)
    (chunk_data : List Nat) (user_id : Option String) :
    Except UploadErr (UploadState × ℚ) :=
  match s.meta with
  | none => .error .videoNotFound
  | some m =>
    if pyTruthy user_id ∧ m.owner_id ≠ user_id then .error .forbidden
    else
      let m1 := if m.total_chunks = 0 then { m with total_chunks := total_chunks } else m
      if chunk_index ≥ total_chunks then .error .badIndex
      else if m1.total_chunks ≠ total_chunks then .error .badTotal
      else
        let chunks' := setChunk s.chunks chunk_index chunk_data
        let received := m1.chunks_received + 1
        let progress : ℚ := ((received : ℚ) / (total_chunks : ℚ)) * 100
        let m2 := { m1 with chunks_received := received, upload_progress := progress }
        .ok ({ meta := some m2, chunks := chunks' }, progress)

/-- The state after an `upload_chunk` call: on an exception the storage
state is as before (no write happened before the raise). -/
def runUpload (s : UploadState) (chunk_index total_chunks : Nat)
    (chunk_data : List Nat) (user_id : Option String) : UploadState :=
  match upload_chunk s chunk_index total_chunks chunk_data user_id with
  | .error _ => s
  | .ok (s', _) => s'

/-- One chunk-upload request (the per-call arguments of `upload_chunk`). -/
structure UploadReq where
  chunk_index : Nat
  total_chunks : Nat
  chunk_data : List Nat
  user_id : Option String
  deriving Repr, DecidableEq

/-- Run a sequence of `upload_chunk` calls, counting the successful ones. -/
def runUploads : UploadState → List UploadReq → UploadState × Nat
  | s, [] => (s, 0)
  | s, r :: rs =>
    match upload_chunk s r.chunk_index r.total_chunks r.chunk_data r.user_id with
    | .error _ => runUploads s rs
    | .ok (s', _) =>
        let (sf, k) := runUploads s' rs
        (sf, k + 1)

/-- Embedding of the HTTP endpoint `upload_chunk`
(src/app/api/endpoints/upload.py lines 65-103): it forwards to the
storage service and, when the call succeeded and
`chunk_index == total_chunks - 1`, schedules `process_video` as a
background task (the boolean in the result).  No finalize/compose happens
on this path. -/
def endpoint_upload_chunk (s : UploadState) (chunk_index total_chunks : Nat)
    (chunk_data : List Nat) (user_id : Option String) :
    Except UploadErr (UploadState × Bool) :=
  match upload_chunk s chunk_index total_chunks chunk_data user_id with
  | .error e => .error e
  | .ok (s', _) => .ok (s', chunk_index = total_chunks - 1)

/-! ## The blob stores and chunk composition

A storage backend is an association list from object paths to byte
lists.  `LocalService.combine_chunks` (local_service.py lines 468-503)
opens the output file in mode `"wb"` (creating/truncating it) before the
per-chunk existence checks, and appends each chunk as it goes, so a
missing chunk aborts the loop with the partial output already on disk.
`GCSService.combine_chunks` (gcs_service.py lines 459-496) checks that
every chunk blob exists before calling the composer, so a missing chunk
leaves the store untouched. -/

/-- A blob store: paths to byte lists, at most one entry per path. -/
abbrev Store := List (String × List Nat)

/-- Overwriting insert (the write primitive of both backends). -/
def setFile : Store → String → List Nat → Store
  | [], p, d => [(p, d)]
  | (q, b) :: rest, p, d =>
      if q = p then (p, d) :: rest else (q, b) :: setFile rest p d

/-- Lookup (existence and content read primitive of both backends). -/
def getFile : Store → String → Option (List Nat)
  | [], _ => none
  | (q, b) :: rest, p => if q = p then some b else getFile rest p

/-- Path of a stored upload chunk: `videos/{id}/chunks/chunk_{i}`. -/
def chunkPath (video_id : String) (i : Nat) : String :=
  "videos/" ++ video_id ++ "/chunks/chunk_" ++ toString i

/-- Error raised by both `combine_chunks` implementations when a chunk is
absent (`StorageError("combine_chunks", f"Chunk {i} not found")`). -/
inductive CombineErr where
  | chunkNotFound (i : Nat)
  deriving Repr, DecidableEq

/-- The chunk loop of `LocalService.combine_chunks`: for each index in
order, fail if the chunk is absent — leaving whatever has been written
so far — else append its bytes to the output file. -/
def combineLocalLoop (st : Store) (video_id out : String) :
    List Nat → Store × Option CombineErr
  | [] => (st, none)
  | i :: rest =>
    match getFile st (chunkPath video_id i) with
    | none => (st, some (.chunkNotFound i))
    | some data =>
        let cur := (getFile st out).getD []
        combineLocalLoop (setFile st out (cur ++ data)) video_id out rest

/-- Embedding of `LocalService.combine_chunks`: the output file is
created empty by `open(..., "wb")` first, then chunks `0..total-1` are
appended in numeric index order. -/
def combine_chunks_local (st : Store) (video_id : String) (total : Nat)
    (out : String) : Store × Option CombineErr :=
  combineLocalLoop (setFile st out []) video_id out (List.range total)

/-- First missing chunk index, scanning in order — the existence loop of
`GCSService.combine_chunks`. -/
def firstMissingChunk (st : Store) (video_id : String) :
    List Nat → Option Nat
  | [] => none
  | i :: rest =>
    match getFile st (chunkPath video_id i) with
    | none => some i
    | some _ => firstMissingChunk st video_id rest

/-- Embedding of `GCSService.combine_chunks`: all chunks are checked for
existence before the composer runs; `compose` then writes the ordered
concatenation to the output blob in one step. -/
def combine_chunks_gcs (st : Store) (video_id : String) (total : Nat)
    (out : String) : Store × Option CombineErr :=
  match firstMissingChunk st video_id (List.range total) with
  | some i => (st, some (.chunkNotFound i))
  | none =>
      let bytes := (List.range total).flatMap
        (fun i => (getFile st (chunkPath video_id i)).getD [])
      (setFile st out bytes, none)

/-! ## Manifest generation

Embedding of `ManifestGenerator` (manifest_generator.py).  HLS segment
durations, floats in seconds in Python, are embedded at microsecond
precision as naturals, so `f"{duration:.6f}"` is exact integer
formatting and `math.ceil(max_duration)` is ceiling division by 10^6. -/

/-- One HLS master-playlist variant entry (bandwidth in bits per second,
resolution string, quality name). -/
structure HlsVariant where
  bandwidth : Nat
  resolution : String
  name : String
  deriving Repr, DecidableEq

/-- The `#EXT-X-STREAM-INF` line built for one variant
(manifest_generator.py lines 49-52). -/
def streamInfLine (v : HlsVariant) : String :=
  "#EXT-X-STREAM-INF:BANDWIDTH=" ++ toString v.bandwidth ++
    ",RESOLUTION=" ++ v.resolution

/-- The line list of `generate_hls_master_playlist`: header, then per
variant (in list order) the stream-info line and the variant playlist
filename. -/
def hlsMasterLines (variants : List HlsVariant) : List String :=
  variants.foldl (fun lines v => lines ++ [streamInfLine v, v.name ++ ".m3u8"])
    ["#EXTM3U", "#EXT-X-VERSION:3"]

/-- Embedding of `ManifestGenerator.generate_hls_master_playlist`
(manifest_generator.py lines 26-59). -/
def generate_hls_master_playlist (variants : List HlsVariant) : String :=
  String.intercalate "\n" (hlsMasterLines variants)

/-- Value of the leading decimal digits of a character list. -/
def digitsVal : List Char → Nat → Nat
  | [], acc => acc
  | c :: rest, acc =>
      if '0' ≤ c ∧ c ≤ '9' then digitsVal rest (acc * 10 + (c.toNat - '0'.toNat))
      else acc

/-- The numbers following each occurrence of `BANDWIDTH=` in a character
list, in order of appearance. -/
def bandwidthsInChars : List Char → List Nat
  | [] => []
  | c :: rest =>
      if ("BANDWIDTH=".data).isPrefixOf (c :: rest) then
        digitsVal ((c :: rest).drop 10) 0 :: bandwidthsInChars rest
      else bandwidthsInChars rest

/-- The `BANDWIDTH=` values readable off a playlist string, in order of
appearance. -/
def bandwidthsInPlaylist (s : String) : List Nat :=
  bandwidthsInChars s.data

/-- One HLS media segment: duration in microseconds, filename. -/
structure HlsSegment where
  duration : Nat
  filename : String
  deriving Repr, DecidableEq

/-- `f"{d:.6f}"` for a microsecond-precision duration: integer part,
dot, six fractional digits. -/
def fmt6 (us : Nat) : String :=
  let fr := toString (us % 1000000)
  toString (us / 1000000) ++ "." ++
    String.mk (List.replicate (6 - fr.length) '0') ++ fr

/-- `math.ceil` of a microsecond duration, in whole seconds. -/
def ceilSeconds (us : Nat) : Nat := (us + 999999) / 1000000

/-- `max(segment["duration"] for segment in segments)`: `none` on the
empty list (Python raises `ValueError`). -/
def hlsMaxDuration (segs : List HlsSegment) : Option Nat :=
  match segs with
  | [] => none
  | s :: rest => some (rest.foldl (fun a x => max a x.duration) s.duration)

/-- The per-segment lines appended by the playlist generators:
`#EXTINF:<duration:.6f>,` then the filename, per segment in order. -/
def hlsSegmentLines (segs : List HlsSegment) (lines : List String) : List String :=
  segs.foldl (fun ls s => ls ++ ["#EXTINF:" ++ fmt6 s.duration ++ ",", s.filename]) lines

/-- Embedding of `ManifestGenerator.generate_hls_variant_playlist`
(manifest_generator.py lines 61-99).  The max-duration computation has no
value on an empty segment list, where Python's `max` raises. -/
def generate_hls_variant_playlist (segs : List HlsSegment) : Option String :=
  match hlsMaxDuration segs with
  | none => none
  | some m =>
      let lines := ["#EXTM3U", "#EXT-X-VERSION:3",
        "#EXT-X-TARGETDURATION:" ++ toString (ceilSeconds m),
        "#EXT-X-MEDIA-SEQUENCE:0"]
      some (String.intercalate "\n" (hlsSegmentLines segs lines ++ ["#EXT-X-ENDLIST"]))

/-- Embedding of `ManifestGenerator.generate_hls_live_playlist`
(manifest_generator.py lines 175-210): a caller-provided media sequence
number and no `#EXT-X-ENDLIST`. -/
def generate_hls_live_playlist (segs : List HlsSegment) (sequence_no : Nat) :
    Option String :=
  match hlsMaxDuration segs with
  | none => none
  | some m =>
      let lines := ["#EXTM3U", "#EXT-X-VERSION:3",
        "#EXT-X-TARGETDURATION:" ++ toString (ceilSeconds m),
        "#EXT-X-MEDIA-SEQUENCE:" ++ toString sequence_no]
      some (String.intercalate "\n" (hlsSegmentLines segs lines))

/-! ## The quality ladder and `generate_manifests`

`AdaptiveStreamingService.generate_manifests` (adaptive_streaming.py
lines 106-151) iterates `settings.VIDEO_QUALITY_PROFILES` in its
(insertion) order, keeps the qualities present in `segments_info`, and
passes the resulting variant list to the master-playlist generator and
the resulting adaptation-set list to the MPD generator — with no sorting
anywhere. -/

/-- One entry of `settings.VIDEO_QUALITY_PROFILES` (config.py 95-121). -/
structure QualityProfile where
  name : String
  resolution : String
  bitrate : String
  audio_bitrate : String
  deriving Repr, DecidableEq

/-- `"k" → "000"` replacement on every occurrence, character-wise. -/
def replaceK : List Char → List Char
  | [] => []
  | c :: rest =>
      if c = 'k' then '0' :: '0' :: '0' :: replaceK rest else c :: replaceK rest

/-- Value of a non-empty all-digit character list, `none` otherwise
(Python's `int(...)` raises on anything else). -/
def charsToNat? (l : List Char) : Option Nat :=
  if l ≠ [] ∧ l.all (fun c => decide ('0' ≤ c) && decide (c ≤ '9')) then
    some (l.foldl (fun a c => a * 10 + (c.toNat - '0'.toNat)) 0)
  else none

/-- `int(profile["bitrate"].replace("k", "000"))` for the digit-and-`k`
bitrate strings of the configuration. -/
def parseBitrate (s : String) : Nat :=
  (charsToNat? (replaceK s.data)).getD 0

/-- The configured default ladder, in the dictionary's insertion order. -/
def defaultQualityProfiles : List QualityProfile :=
  [⟨"240p", "426x240", "300k", "64k"⟩,
   ⟨"360p", "640x360", "800k", "96k"⟩,
   ⟨"480p", "854x480", "1400k", "128k"⟩,
   ⟨"720p", "1280x720", "2800k", "128k"⟩,
   ⟨"1080p", "1920x1080", "5000k", "192k"⟩]

/-- The `hls_variants` list built by `generate_manifests` (lines
108-121): ladder order, filtered to the generated qualities. -/
def hlsVariantsFor (profiles : List QualityProfile) (generated : List String) :
    List HlsVariant :=
  profiles.foldl
    (fun acc q =>
      if generated.contains q.name then
        acc ++ [⟨parseBitrate q.bitrate, q.resolution, q.name⟩]
      else acc)
    []

/-- The bandwidths of the `dash_adaptation_sets` list built by
`generate_manifests` (lines 131-148): same ladder order and filter. -/
def dashAdaptationBandwidthsFor (profiles : List QualityProfile)
    (generated : List String) : List Nat :=
  profiles.foldl
    (fun acc q =>
      if generated.contains q.name then acc ++ [parseBitrate q.bitrate]
      else acc)
    []

/-! ## DASH transcode segment collection

Embedding of the segment-collection loop of
`Transcoder._transcode_for_dash` (transcoder.py lines 333-380): segment
numbering starts at 1, `start_time` starts at 0, each segment's duration
in milliseconds is the probed value (or `segment_duration * 1000` when
the probe fails or its output does not parse), and `start_time`
accumulates by the duration just emitted. -/

/-- One collected DASH segment descriptor: `{"index": …, "start": …,
"duration": …}`, times in milliseconds. -/
structure DashSeg where
  index : Nat
  start : Nat
  duration : Nat
  deriving Repr, DecidableEq

/-- Effective duration of one segment: the probed milliseconds when the
probe succeeded and parsed, else the nominal `segment_duration * 1000`. -/
def effDurMs (probed : Option Nat) (segment_duration : Nat) : Nat :=
  probed.getD (segment_duration * 1000)

/-- The collection loop, one recursive step per existing segment file.
`probed` holds, per segment file in order, the probe outcome. -/
def dashSegmentsGo (segment_duration : Nat) :
    List (Option Nat) → Nat → Nat → List DashSeg
  | [], _, _ => []
  | p :: rest, idx, start =>
      let d := effDurMs p segment_duration
      ⟨idx, start, d⟩ :: dashSegmentsGo segment_duration rest (idx + 1) (start + d)

/-- Embedding of the result of `Transcoder._transcode_for_dash`'s
segment loop: numbering from 1, start time from 0. -/
def dashTranscodeSegments (probed : List (Option Nat)) (segment_duration : Nat) :
    List DashSeg :=
  dashSegmentsGo segment_duration probed 1 0

/-- The `(t, d)` attribute pairs of the `<S>` elements emitted by
`ManifestGenerator.generate_dash_mpd` for a provided segment timeline
(manifest_generator.py lines 156-163): one element per segment, in
order, `t` from `start` and `d` from `duration`. -/
def mpdSegmentTimelineS (timeline : List DashSeg) : List (Nat × Nat) :=
  timeline.map (fun s => (s.start, s.duration))

/-! ## Janitor sweeps

Embedding of `CleanupWorker.recover_stalled_processing`
(cleanup_worker.py lines 163-217) and
`CleanupWorker.cleanup_expired_content` (lines 92-137).  The per-record
storage and collaborator operations (metadata load/save, the Django
update, `cleanup_video`) can raise; any such exception propagates out of
the per-record loop to the outer handler, which re-raises
`StorageError`, aborting the sweep.  The embedding takes the outcome of
each record's fallible operations as a function of the record id, and
returns the ids processed before the abort together with the error, if
any.  (`cleanup_failed_processing` swallows its own errors and cannot
abort, so it does not appear as a failure source.) -/

/-- One candidate record as returned by `list_videos`. -/
structure JanitorVideo where
  id : String
  updated_at : String
  created_at : String
  allow_cleanup : Bool
  deriving Repr, DecidableEq

/-- The sweep error (`StorageError` re-raised by the outer handler). -/
inductive JanitorErr where
  | storageError
  deriving Repr, DecidableEq

/-- Python's `<` on strings: lexicographic comparison by code point. -/
def pyStrLtChars : List Char → List Char → Bool
  | [], [] => false
  | [], _ :: _ => true
  | _ :: _, [] => false
  | a :: as, b :: bs =>
      if a.toNat < b.toNat then true
      else if b.toNat < a.toNat then false
      else pyStrLtChars as bs

/-- Python's `a < b` (equivalently `b > a`) on strings. -/
def pyStrLt (a b : String) : Bool := pyStrLtChars a.data b.data

/-- Loop of `recover_stalled_processing`: a record is skipped when
`video.get("updated_at", "") > stall_str` (Python string comparison);
otherwise its metadata is re-read, marked `error` and saved, and the
Django backend is notified — `ops id` is the combined outcome of those
fallible calls.  On the first failure the exception aborts the loop. -/
def recoverStalledGo (stall_str : String) (ops : String → Option JanitorErr) :
    List JanitorVideo → List String → List String × Option JanitorErr
  | [], acc => (acc, none)
  | v :: rest, acc =>
      if pyStrLt stall_str v.updated_at then recoverStalledGo stall_str ops rest acc
      else
        match ops v.id with
        | some e => (acc, some e)
        | none => recoverStalledGo stall_str ops rest (acc ++ [v.id])

/-- Embedding of `CleanupWorker.recover_stalled_processing` applied to
the records returned by `list_videos({"status": "processing"}, …)`. -/
def recover_stalled_processing (videos : List JanitorVideo) (stall_str : String)
    (ops : String → Option JanitorErr) : List String × Option JanitorErr :=
  recoverStalledGo stall_str ops videos []

/-- Loop of `cleanup_expired_content`: a record is skipped when
`created_at > expiration_str` or when `allow_cleanup` is falsy;
otherwise `cleanup_video` runs — its outcome is `ops id` — and a failure
aborts the loop. -/
def cleanupExpiredGo (expiration_str : String) (ops : String → Option JanitorErr) :
    List JanitorVideo → List String → List String × Option JanitorErr
  | [], acc => (acc, none)
  | v :: rest, acc =>
      if pyStrLt expiration_str v.created_at then cleanupExpiredGo expiration_str ops rest acc
      else if !v.allow_cleanup then cleanupExpiredGo expiration_str ops rest acc
      else
        match ops v.id with
        | some e => (acc, some e)
        | none => cleanupExpiredGo expiration_str ops rest (acc ++ [v.id])

/-- Embedding of `CleanupWorker.cleanup_expired_content`. -/
def cleanup_expired_content (videos : List JanitorVideo) (expiration_str : String)
    (ops : String → Option JanitorErr) : List String × Option JanitorErr :=
  cleanupExpiredGo expiration_str ops videos []

/-! ## Concrete fixtures used by the counterexamples and witnesses -/

/-- A freshly initialised record (as `initialize_upload` creates it:
`status="pending"`, `chunks_received=0`, `total_chunks=0`), no owner
recorded, empty chunk store. -/
def c1Start : UploadState :=
  { meta := some { owner_id := none, status := "pending", total_chunks := 0,
                   chunks_received := 0, upload_progress := 0, output_path := none },
    chunks := [] }

/-- `c1Start` after one successful upload of chunk 0 of 1. -/
def c1Mid : UploadState :=
  { meta := some { owner_id := none, status := "pending", total_chunks := 1,
                   chunks_received := 1, upload_progress := 100, output_path := none },
    chunks := [(0, [7])] }

/-- A freshly initialised record for the endpoint scenario. -/
def c2Start : UploadState :=
  { meta := some { owner_id := none, status := "pending", total_chunks := 0,
                   chunks_received := 0, upload_progress := 0, output_path := none },
    chunks := [] }

/-- `c2Start` after uploading only chunk 2 of 3. -/
def c2After : UploadState :=
  { meta := some { owner_id := none, status := "pending", total_chunks := 3,
                   chunks_received := 1, upload_progress := 100 / 3, output_path := none },
    chunks := [(2, [5])] }

/-- A freshly initialised record owned by `"alice"`. -/
def c5Start : UploadState :=
  { meta := some { owner_id := some "alice", status := "pending", total_chunks := 0,
                   chunks_received := 0, upload_progress := 0, output_path := none },
    chunks := [] }

/-- `c5Start` after a successful upload of chunk 0 of 1. -/
def c5After : UploadState :=
  { meta := some { owner_id := some "alice", status := "pending", total_chunks := 1,
                   chunks_received := 1, upload_progress := 100, output_path := none },
    chunks := [(0, [3])] }

/-! ## Helper lemmas -/

instance {ε α : Type} [DecidableEq ε] [DecidableEq α] : DecidableEq (Except ε α)
  | .error a, .error b =>
      if h : a = b then isTrue (by rw [h])
      else isFalse (by intro hh; cases hh; exact h rfl)
  | .error _, .ok _ => isFalse (by intro hh; cases hh)
  | .ok _, .error _ => isFalse (by intro hh; cases hh)
  | .ok a, .ok b =>
      if h : a = b then isTrue (by rw [h])
      else isFalse (by intro hh; cases hh; exact h rfl)

theorem getFile_setFile_self (st : Store) (p : String) (d : List Nat) :
    getFile (setFile st p d) p = some d := by
  induction st with
  | nil => simp [setFile, getFile]
  | cons hd tl ih =>
      obtain ⟨q, b⟩ := hd
      by_cases h : q = p
      · simp [setFile, getFile, h]
      · simp [setFile, getFile, h, ih]

theorem getFile_setFile_ne (st : Store) (p q : String) (d : List Nat)
    (h : q ≠ p) : getFile (setFile st p d) q = getFile st q := by
  induction st with
  | nil => simp [setFile, getFile, h, Ne.symm h]
  | cons hd tl ih =>
      obtain ⟨r, b⟩ := hd
      by_cases hr : r = p
      · subst hr
        simp [setFile, getFile, h, Ne.symm h]
      · by_cases hq : r = q
        · subst hq
          simp [setFile, getFile, hr]
        · simp [setFile, getFile, hr, hq, ih]

theorem getChunk_setChunk_self (l : List (Nat × List Nat)) (i : Nat) (d : List Nat) :
    getChunk (setChunk l i d) i = some d := by
  induction l with
  | nil => simp [setChunk, getChunk]
  | cons hd tl ih =>
      obtain ⟨j, b⟩ := hd
      by_cases h : j = i
      · simp [setChunk, getChunk, h]
      · simp [setChunk, getChunk, h, ih]

/-- Appending one or two elements per item in a left fold is the header
followed by the flat expansion, in input order. -/
theorem foldl_append_pair {α : Type} (f g : α → String) :
    ∀ (l : List α) (acc : List String),
      l.foldl (fun a v => a ++ [f v, g v]) acc
        = acc ++ l.flatMap (fun v => [f v, g v])
  | [], acc => by simp
  | v :: rest, acc => by
      simp [List.foldl_cons, foldl_append_pair f g rest]

/-- A conditional append in a left fold is filtering followed by mapping,
in input order. -/
theorem foldl_filter_map {α β : Type} (p : α → Bool) (f : α → β) :
    ∀ (l : List α) (acc : List β),
      l.foldl (fun a q => if p q then a ++ [f q] else a) acc
        = acc ++ (l.filter p).map f
  | [], acc => by simp
  | q :: rest, acc => by
      by_cases h : p q
      · simp [List.foldl_cons, h, foldl_filter_map p f rest]
      · simp [List.foldl_cons, h, foldl_filter_map p f rest]

theorem init_le_foldl_max : ∀ (l : List Nat) (a : Nat),
    a ≤ l.foldl (fun m y => max m y) a
  | [], a => le_refl a
  | y :: rest, a =>
      le_trans (le_max_left a y) (init_le_foldl_max rest (max a y))

theorem le_foldl_max : ∀ (l : List Nat) (a x : Nat), x ∈ l →
    x ≤ l.foldl (fun m y => max m y) a
  | [], _, _, hx => by cases hx
  | y :: rest, a, x, hx => by
      rcases List.mem_cons.mp hx with h | h
      · subst h
        calc x ≤ max a x := le_max_right a x
          _ ≤ rest.foldl (fun m y => max m y) (max a x) := init_le_foldl_max rest _
      · exact le_foldl_max rest (max a y) x h

theorem foldl_max_mem : ∀ (l : List Nat) (a : Nat),
    l.foldl (fun m y => max m y) a = a ∨ l.foldl (fun m y => max m y) a ∈ l
  | [], a => Or.inl rfl
  | y :: rest, a => by
      have h := foldl_max_mem rest (max a y)
      simp only [List.foldl_cons]
      rcases h with h | h
      · rcases max_cases a y with ⟨hm, _⟩ | ⟨hm, _⟩
        · exact Or.inl (by rw [h, hm])
        · exact Or.inr (by rw [h, hm]; exact List.mem_cons_self y rest)
      · exact Or.inr (List.mem_cons_of_mem y h)

/-- What one successful `upload_chunk` call does: `chunks_received` goes
up by exactly one (whether or not the index was already present), the
blob at the index is (over)written with the new data, every other
metadata field of the upload path (`status`, `output_path`, `owner_id`)
is untouched, and the bounds check passed. -/
theorem upload_chunk_ok_spec (s : UploadState) (i t : Nat) (d : List Nat)
    (u : Option String) (s' : UploadState) (q : ℚ)
    (h : upload_chunk s i t d u = .ok (s', q)) :
    s'.meta.map (·.chunks_received) = s.meta.map (fun m => m.chunks_received + 1) ∧
    s'.meta.map (·.status) = s.meta.map (·.status) ∧
    s'.meta.map (·.output_path) = s.meta.map (·.output_path) ∧
    s'.meta.map (·.owner_id) = s.meta.map (·.owner_id) ∧
    getChunk s'.chunks i = some d ∧
    i < t := by
  unfold upload_chunk at h
  cases hm : s.meta with
  | none => rw [hm] at h; exact absurd h (by simp)
  | some m =>
      rw [hm] at h
      dsimp only at h
      repeat' split at h
      all_goals first
        | exact Except.noConfusion h
        | · rw [Except.ok.injEq, Prod.mk.injEq] at h
            obtain ⟨hs, hq⟩ := h
            subst hs
            refine ⟨?_, ?_, ?_, ?_, ?_, by omega⟩ <;>
              simp [hm, getChunk_setChunk_self]

/-- Over any request sequence, `chunks_received` grows by exactly the
number of successful calls — duplicates and all. -/
theorem runUploads_received : ∀ (reqs : List UploadReq) (s : UploadState),
    (runUploads s reqs).1.meta.map (·.chunks_received)
      = s.meta.map (fun m => m.chunks_received + (runUploads s reqs).2)
  | [], s => by simp [runUploads]
  | r :: rs, s => by
      unfold runUploads
      cases h : upload_chunk s r.chunk_index r.total_chunks r.chunk_data r.user_id with
      | error e =>
          have hrec := runUploads_received rs s
          simpa using hrec
      | ok p =>
          obtain ⟨s', q⟩ := p
          have hstep := (upload_chunk_ok_spec s _ _ _ _ s' q h).1
          have hrec := runUploads_received rs s'
          simp only []
          cases hsm : s.meta with
          | none =>
              rw [hsm] at hstep
              have hsm' : s'.meta = none := by
                cases hs' : s'.meta with
                | none => rfl
                | some m' => rw [hs'] at hstep; exact absurd hstep (by simp)
              rw [hsm'] at hrec
              simp only [Option.map_none'] at hrec ⊢
              exact hrec
          | some m =>
              rw [hsm] at hstep
              cases hs' : s'.meta with
              | none => rw [hs'] at hstep; exact absurd hstep (by simp)
              | some m' =>
                  rw [hs'] at hstep
                  simp only [Option.map_some'] at hstep
                  rw [hs'] at hrec
                  simp only [Option.map_some'] at hrec ⊢
                  rw [hrec]
                  simp only [Option.some.injEq] at hstep ⊢
                  omega

/-! ## Claims -/

/-- C1 counterexample: uploading chunk `(0, total=1)` twice from a fresh
record succeeds both times and leaves `chunks_received = 2` while
`total_chunks = 1` and only one distinct chunk index is stored — so a
re-upload does increment `chunks_received`, `chunks_received` exceeds
`total_chunks`, and it differs from the number of distinct received
indices, contradicting the claim. -/
theorem upload_chunk_double_counts_cex :
    ((upload_chunk c1Start 0 1 [7] none).bind
        (fun p => upload_chunk p.1 0 1 [9] none)).map
      (fun p => (p.1.meta.map (·.chunks_received),
                 p.1.meta.map (·.total_chunks), p.1.chunks))
      = .ok (some 2, some 1, [(0, [9])])
    ∧ ¬ (2 : Nat) ≤ 1 ∧ (2 : Nat) ≠ 1 := by
  refine ⟨by decide, by decide, by decide⟩

/-- C1 (amended): every successful `upload_chunk` call increments
`chunks_received` by exactly one — also when the index was already
received — while the blob at the index is overwritten; consequently,
over any sequence of calls, `chunks_received` grows by the number of
successful calls, not by the number of distinct indices. -/
theorem upload_chunk_received_counts_calls :
    (∀ (s : UploadState) (i t : Nat) (d : List Nat) (u : Option String)
        (s' : UploadState) (q : ℚ),
        upload_chunk s i t d u = .ok (s', q) →
          s'.meta.map (·.chunks_received)
              = s.meta.map (fun m => m.chunks_received + 1) ∧
          getChunk s'.chunks i = some d) ∧
    (∀ (s : UploadState) (reqs : List UploadReq),
        (runUploads s reqs).1.meta.map (·.chunks_received)
          = s.meta.map (fun m => m.chunks_received + (runUploads s reqs).2)) :=
  ⟨fun s i t d u s' q h =>
      ⟨(upload_chunk_ok_spec s i t d u s' q h).1,
       (upload_chunk_ok_spec s i t d u s' q h).2.2.2.2.1⟩,
   fun s reqs => runUploads_received reqs s⟩

/-- C1 witness: the first part applied to a concrete successful upload. -/
theorem upload_chunk_received_counts_calls_witness :
    c1Mid.meta.map (·.chunks_received)
        = c1Start.meta.map (fun m => m.chunks_received + 1) ∧
    getChunk c1Mid.chunks 0 = some [7] :=
  upload_chunk_received_counts_calls.1 c1Start 0 1 [7] none c1Mid 100
    (by norm_num [upload_chunk, c1Start, c1Mid, setChunk, pyTruthy])

/-- C2 counterexample: from a fresh 3-chunk record, uploading only chunk
2 (the last index) succeeds, schedules background processing (the `true`
flag) although `chunks_received = 1 ≠ 3`, and performs no finalize: the
status is still `"pending"` and `output_path` is unset — contradicting
"finalize is invoked synchronously exactly when the upload makes
`chunks_received` equal `total_chunks`" and "processing is not triggered
while any chunk is still missing". -/
theorem endpoint_triggers_while_chunks_missing_cex :
    endpoint_upload_chunk c2Start 2 3 [5] none = .ok (c2After, true)
    ∧ c2After.meta.map (·.chunks_received) = some 1
    ∧ (1 : Nat) ≠ 3
    ∧ c2After.meta.map (·.status) = some "pending"
    ∧ c2After.meta.map (·.output_path) = some none := by
  refine ⟨?_, by decide, by decide, by decide, by decide⟩
  norm_num [endpoint_upload_chunk, upload_chunk, c2Start, c2After, setChunk, pyTruthy]

/-- C2 (amended): on the HTTP upload path, a successful chunk upload
schedules processing — in the background, not synchronously — if and
only if the uploaded chunk's index equals `total_chunks - 1`,
independently of how many chunks have been received, and the upload path
itself never finalizes: `status` and `output_path` are unchanged. -/
theorem endpoint_trigger_is_last_index_only :
    ∀ (s : UploadState) (i t : Nat) (d : List Nat) (u : Option String)
      (s' : UploadState) (trig : Bool),
      endpoint_upload_chunk s i t d u = .ok (s', trig) →
        trig = decide (i = t - 1) ∧ 1 ≤ t ∧ (trig = true ↔ i + 1 = t) ∧
        s'.meta.map (·.status) = s.meta.map (·.status) ∧
        s'.meta.map (·.output_path) = s.meta.map (·.output_path) := by
  intro s i t d u s' trig h
  unfold endpoint_upload_chunk at h
  cases hc : upload_chunk s i t d u with
  | error e => rw [hc] at h; exact Except.noConfusion h
  | ok p =>
      obtain ⟨s0, q⟩ := p
      rw [hc] at h
      rw [Except.ok.injEq, Prod.mk.injEq] at h
      obtain ⟨hs, ht⟩ := h
      subst hs
      have hspec := upload_chunk_ok_spec s i t d u s0 q hc
      have hit : i < t := hspec.2.2.2.2.2
      refine ⟨ht.symm, by omega, ?_, hspec.2.1, hspec.2.2.1⟩
      subst ht
      constructor
      · intro hd
        have := of_decide_eq_true hd
        omega
      · intro hd
        have hit1 : i = t - 1 := by omega
        simp [hit1]

/-- C2 witness: the theorem applied to the concrete upload of chunk 2 of
3 from a fresh record. -/
theorem endpoint_trigger_is_last_index_only_witness :
    (true : Bool) = decide ((2 : Nat) = 3 - 1) ∧ (1 : Nat) ≤ 3
    ∧ ((true : Bool) = true ↔ (2 : Nat) + 1 = 3)
    ∧ c2After.meta.map (·.status) = c2Start.meta.map (·.status)
    ∧ c2After.meta.map (·.output_path) = c2Start.meta.map (·.output_path) :=
  endpoint_trigger_is_last_index_only c2Start 2 3 [5] none c2After true
    (by norm_num [endpoint_upload_chunk, upload_chunk, c2Start, c2After, setChunk, pyTruthy])

/-- C5 counterexample: for a record owned by `"alice"`, an upload with an
absent caller id and one with an empty caller id are both accepted (the
owner check is skipped on falsy `user_id`), contradicting "there is no
input (including an absent/empty caller id) for which a non-owner's
upload is accepted". -/
theorem owner_check_skipped_cex :
    upload_chunk c5Start 0 1 [3] none = .ok (c5After, 100)
    ∧ upload_chunk c5Start 0 1 [3] (some "") = .ok (c5After, 100)
    ∧ c5Start.meta.map (·.owner_id) = some (some "alice") := by
  refine ⟨?_, ?_, by decide⟩ <;>
    norm_num [upload_chunk, c5Start, c5After, setChunk, pyTruthy]

/-- C5 (amended): the owner check fires only when a non-empty `user_id`
is provided — then a mismatch is rejected with the permission error and
the state is unchanged; when `user_id` is absent or empty the check is
skipped entirely and the call behaves as if no caller id were given. -/
theorem owner_check_requires_provided_user :
    (∀ (s : UploadState) (m : VideoMeta) (i t : Nat) (d : List Nat) (u : String),
        s.meta = some m → u ≠ "" → m.owner_id ≠ some u →
          upload_chunk s i t d (some u) = .error .forbidden ∧
          runUpload s i t d (some u) = s) ∧
    (∀ (s : UploadState) (i t : Nat) (d : List Nat) (u : Option String),
        pyTruthy u = false →
          upload_chunk s i t d u = upload_chunk s i t d none) := by
  constructor
  · intro s m i t d u hm hu hne
    have hchk : upload_chunk s i t d (some u) = .error .forbidden := by
      unfold upload_chunk
      rw [hm]
      dsimp only
      rw [if_pos]
      exact ⟨by simp [pyTruthy, hu], hne⟩
    exact ⟨hchk, by unfold runUpload; rw [hchk]⟩
  · intro s i t d u hu
    unfold upload_chunk
    cases s.meta with
    | none => rfl
    | some m =>
        dsimp only
        conv_lhs => rw [if_neg (show ¬ (pyTruthy u = true ∧ m.owner_id ≠ u) from by
          simp [hu])]
        conv_rhs => rw [if_neg (show ¬ (pyTruthy none = true ∧ m.owner_id ≠ none) from by
          simp [pyTruthy])]

/-- C5 witness: the first part applied to a concrete mismatching caller. -/
theorem owner_check_requires_provided_user_witness :
    upload_chunk c5Start 0 1 [3] (some "mallory") = .error .forbidden ∧
    runUpload c5Start 0 1 [3] (some "mallory") = c5Start :=
  owner_check_requires_provided_user.1 c5Start
    { owner_id := some "alice", status := "pending", total_chunks := 0,
      chunks_received := 0, upload_progress := 0, output_path := none }
    0 1 [3] "mallory" rfl (by decide) (by decide)

theorem firstMissingChunk_isSome (st : Store) (vid : String) :
    ∀ (l : List Nat) (i : Nat), i ∈ l → getFile st (chunkPath vid i) = none →
      (firstMissingChunk st vid l).isSome = true
  | [], i, hi, _ => by cases hi
  | j :: rest, i, hi, hmiss => by
      unfold firstMissingChunk
      cases hj : getFile st (chunkPath vid j) with
      | none => rfl
      | some b =>
          rcases List.mem_cons.mp hi with h | h
          · subst h; rw [hj] at hmiss; cases hmiss
          · exact firstMissingChunk_isSome st vid rest i h hmiss

theorem firstMissingChunk_none (st : Store) (vid : String) :
    ∀ (l : List Nat), (∀ i ∈ l, (getFile st (chunkPath vid i)).isSome = true) →
      firstMissingChunk st vid l = none
  | [], _ => rfl
  | j :: rest, hall => by
      have hh := hall j (List.mem_cons_self j rest)
      have htail := firstMissingChunk_none st vid rest
        (fun i hi => hall i (List.mem_cons_of_mem j hi))
      unfold firstMissingChunk
      cases hj : getFile st (chunkPath vid j) with
      | none => rw [hj] at hh; simp at hh
      | some b => simpa using htail

theorem combineLocalLoop_out_isSome (vid out : String) :
    ∀ (idxs : List Nat) (st : Store), (getFile st out).isSome = true →
      (getFile (combineLocalLoop st vid out idxs).1 out).isSome = true
  | [], st, h => h
  | i :: rest, st, h => by
      unfold combineLocalLoop
      cases hi : getFile st (chunkPath vid i) with
      | none => exact h
      | some data =>
          exact combineLocalLoop_out_isSome vid out rest _
            (by rw [getFile_setFile_self]; rfl)

theorem combineLocalLoop_err_isSome (vid out : String) :
    ∀ (idxs : List Nat) (st : Store),
      (∃ i ∈ idxs, getFile st (chunkPath vid i) = none) →
      (∀ i ∈ idxs, chunkPath vid i ≠ out) →
      (combineLocalLoop st vid out idxs).2.isSome = true
  | [], _, hmiss, _ => by rcases hmiss with ⟨i, hi, _⟩; cases hi
  | i :: rest, st, hmiss, hout => by
      unfold combineLocalLoop
      cases hi : getFile st (chunkPath vid i) with
      | none => rfl
      | some data =>
          rcases hmiss with ⟨j, hj, hjmiss⟩
          rcases List.mem_cons.mp hj with h | h
          · subst h; rw [hi] at hjmiss; cases hjmiss
          · refine combineLocalLoop_err_isSome vid out rest _ ⟨j, h, ?_⟩
              (fun k hk => hout k (List.mem_cons_of_mem i hk))
            rw [getFile_setFile_ne _ _ _ _ (hout j hj)]
            exact hjmiss

/-- C3 counterexample: on the local backend, combining 1 chunk over an
empty store (the chunk is missing) fails — but the output object has
been created (empty), although it did not exist before, contradicting
"the output object is not created … for both the local-filesystem
backend and the cloud backend". -/
theorem combine_chunks_local_creates_output_cex :
    combine_chunks_local [] "v" 1 "videos/v/out.mp4"
      = ([("videos/v/out.mp4", [])], some (.chunkNotFound 0))
    ∧ getFile [("videos/v/out.mp4", [])] "videos/v/out.mp4" = some []
    ∧ getFile ([] : Store) "videos/v/out.mp4" = none := by
  refine ⟨by decide, by decide, by decide⟩

theorem range_split (k r : Nat) :
    List.range (k + (r + 1)) = List.range k ++ k :: List.range' (k + 1) r := by
  have h := List.range'_append 0 k (r + 1) 1
  simp only [Nat.zero_add, Nat.one_mul] at h
  rw [List.range'_succ] at h
  rw [List.range_eq_range', List.range_eq_range',
    show k + (r + 1) = (r + 1) + k by omega]
  exact h.symm

theorem firstMissingChunk_prefix (st : Store) (vid : String) (k : Nat)
    (hkmiss : getFile st (chunkPath vid k) = none) :
    ∀ (pres rest : List Nat),
      (∀ i ∈ pres, (getFile st (chunkPath vid i)).isSome = true) →
      firstMissingChunk st vid (pres ++ k :: rest) = some k
  | [], rest, _ => by
      simp only [List.nil_append, firstMissingChunk, hkmiss]
  | j :: pres', rest, hpres => by
      have hj := hpres j (List.mem_cons_self j pres')
      simp only [List.cons_append, firstMissingChunk]
      cases hgj : getFile st (chunkPath vid j) with
      | none => rw [hgj] at hj; simp at hj
      | some b =>
          exact firstMissingChunk_prefix st vid k hkmiss pres' rest
            (fun i hi => hpres i (List.mem_cons_of_mem j hi))

theorem combineLocalLoop_prefix_missing (vid out : String) (f : Nat → List Nat)
    (k : Nat) (hkout : chunkPath vid k ≠ out) :
    ∀ (pres rest : List Nat) (st : Store) (acc : List Nat),
      getFile st out = some acc →
      getFile st (chunkPath vid k) = none →
      (∀ i ∈ pres, getFile st (chunkPath vid i) = some (f i)) →
      (∀ i ∈ pres, chunkPath vid i ≠ out) →
      (combineLocalLoop st vid out (pres ++ k :: rest)).2 = some (.chunkNotFound k) ∧
      getFile (combineLocalLoop st vid out (pres ++ k :: rest)).1 out
        = some (acc ++ pres.flatMap f)
  | [], rest, st, acc, hacc, hkmiss, _, _ => by
      simp only [List.nil_append]
      unfold combineLocalLoop
      rw [hkmiss]
      exact ⟨rfl, by simpa using hacc⟩
  | i :: pres', rest, st, acc, hacc, hkmiss, hall, hout => by
      simp only [List.cons_append]
      unfold combineLocalLoop
      rw [hall i (List.mem_cons_self i pres'), hacc]
      have hrec := combineLocalLoop_prefix_missing vid out f k hkout pres' rest
        (setFile st out (acc ++ f i)) (acc ++ f i)
        (getFile_setFile_self st out _)
        (by rw [getFile_setFile_ne _ _ _ _ hkout]; exact hkmiss)
        (fun j hj => by
          rw [getFile_setFile_ne _ _ _ _ (hout j (List.mem_cons_of_mem i hj))]
          exact hall j (List.mem_cons_of_mem i hj))
        (fun j hj => hout j (List.mem_cons_of_mem i hj))
      simpa [List.append_assoc] using hrec

/-- C3 (amended): when chunk `k` is the first missing chunk below
`total` (all chunks before it are present), both backends fail with the
chunk-not-found error naming `k`; the cloud backend leaves the store
unchanged (no output created), but the local backend has already created
the output object, and it holds exactly the concatenation of the chunks
preceding the first missing index. -/
theorem combine_chunks_missing_chunk (st : Store) (vid : String) (total k : Nat)
    (out : String) (f : Nat → List Nat)
    (hk : k < total)
    (hkmiss : getFile st (chunkPath vid k) = none)
    (hpres : ∀ i, i < k → getFile st (chunkPath vid i) = some (f i))
    (hout : ∀ i, i < total → chunkPath vid i ≠ out) :
    ((combine_chunks_gcs st vid total out).1 = st ∧
      (combine_chunks_gcs st vid total out).2 = some (.chunkNotFound k)) ∧
    ((combine_chunks_local st vid total out).2 = some (.chunkNotFound k) ∧
      getFile (combine_chunks_local st vid total out).1 out
        = some ((List.range k).flatMap f)) := by
  have hkout : chunkPath vid k ≠ out := hout k hk
  obtain ⟨r, hr⟩ : ∃ r, total = k + (r + 1) := ⟨total - k - 1, by omega⟩
  subst hr
  have hdecomp : List.range (k + (r + 1)) = List.range k ++ k :: List.range' (k + 1) r :=
    range_split k r
  constructor
  · unfold combine_chunks_gcs
    rw [hdecomp, firstMissingChunk_prefix st vid k hkmiss (List.range k) _
      (fun i hi => by rw [hpres i (List.mem_range.mp hi)]; rfl)]
    exact ⟨rfl, rfl⟩
  · unfold combine_chunks_local
    rw [hdecomp]
    have h := combineLocalLoop_prefix_missing vid out f k hkout (List.range k)
      (List.range' (k + 1) r) (setFile st out []) []
      (getFile_setFile_self st out [])
      (by rw [getFile_setFile_ne _ _ _ _ hkout]; exact hkmiss)
      (fun j hj => by
        rw [getFile_setFile_ne _ _ _ _
          (hout j (by have := List.mem_range.mp hj; omega))]
        exact hpres j (List.mem_range.mp hj))
      (fun j hj => hout j (by have := List.mem_range.mp hj; omega))
    simpa using h

/-- C3 witness: the theorem applied to a store holding chunk 0 (bytes
`[1]`) but missing chunk 1 of 2 — the failed local combine leaves the
output holding chunk 0's bytes. -/
theorem combine_chunks_missing_chunk_witness :
    ((combine_chunks_gcs [(chunkPath "w" 0, [1])] "w" 2 "videos/w/src.mp4").1
        = [(chunkPath "w" 0, [1])] ∧
      (combine_chunks_gcs [(chunkPath "w" 0, [1])] "w" 2 "videos/w/src.mp4").2
        = some (.chunkNotFound 1)) ∧
    ((combine_chunks_local [(chunkPath "w" 0, [1])] "w" 2 "videos/w/src.mp4").2
        = some (.chunkNotFound 1) ∧
      getFile (combine_chunks_local [(chunkPath "w" 0, [1])] "w" 2 "videos/w/src.mp4").1
          "videos/w/src.mp4"
        = some ((List.range 1).flatMap (fun _ => ([1] : List Nat)))) :=
  combine_chunks_missing_chunk [(chunkPath "w" 0, [1])] "w" 2 1 "videos/w/src.mp4"
    (fun _ => [1]) (by decide) (by decide) (by decide) (by decide)

theorem flatMap_congr_mem {α β : Type} (f g : α → List β) :
    ∀ (l : List α), (∀ a ∈ l, f a = g a) → l.flatMap f = l.flatMap g
  | [], _ => rfl
  | a :: rest, h => by
      simp only [List.flatMap_cons]
      rw [h a (List.mem_cons_self a rest),
        flatMap_congr_mem f g rest (fun b hb => h b (List.mem_cons_of_mem a hb))]

theorem length_flatMap_eq_sum {α : Type} (f : α → List Nat) :
    ∀ (l : List α), (l.flatMap f).length = (l.map (fun a => (f a).length)).sum
  | [] => rfl
  | a :: rest => by
      simp only [List.flatMap_cons, List.map_cons, List.length_append, List.sum_cons,
        length_flatMap_eq_sum f rest]

theorem combineLocalLoop_all_present (vid out : String) (f : Nat → List Nat) :
    ∀ (idxs : List Nat) (st : Store) (acc : List Nat),
      getFile st out = some acc →
      (∀ i ∈ idxs, getFile st (chunkPath vid i) = some (f i)) →
      (∀ i ∈ idxs, chunkPath vid i ≠ out) →
      (combineLocalLoop st vid out idxs).2 = none ∧
      getFile (combineLocalLoop st vid out idxs).1 out = some (acc ++ idxs.flatMap f)
  | [], st, acc, hacc, _, _ => ⟨rfl, by simpa using hacc⟩
  | i :: rest, st, acc, hacc, hall, hout => by
      unfold combineLocalLoop
      rw [hall i (List.mem_cons_self i rest), hacc]
      have hrec := combineLocalLoop_all_present vid out f rest
        (setFile st out (acc ++ f i)) (acc ++ f i)
        (getFile_setFile_self st out _)
        (fun j hj => by
          rw [getFile_setFile_ne _ _ _ _ (hout j (List.mem_cons_of_mem i hj))]
          exact hall j (List.mem_cons_of_mem i hj))
        (fun j hj => hout j (List.mem_cons_of_mem i hj))
      simpa [List.append_assoc] using hrec

/-- C4 (confirmed): with all chunks `0 … total-1` present, both backends
succeed and write, at the output path, the concatenation of the chunks'
bytes in ascending numeric index order (the loop runs over
`range(total_chunks)`, not over a directory listing), so the output
length is the sum of the chunk lengths. -/
theorem combine_chunks_concatenates (st : Store) (vid : String) (total : Nat)
    (out : String) (f : Nat → List Nat)
    (hall : ∀ i, i < total → getFile st (chunkPath vid i) = some (f i))
    (hout : ∀ i, i < total → chunkPath vid i ≠ out) :
    ((combine_chunks_local st vid total out).2 = none ∧
      getFile (combine_chunks_local st vid total out).1 out
        = some ((List.range total).flatMap f)) ∧
    ((combine_chunks_gcs st vid total out).2 = none ∧
      getFile (combine_chunks_gcs st vid total out).1 out
        = some ((List.range total).flatMap f)) ∧
    ((List.range total).flatMap f).length
      = ((List.range total).map (fun i => (f i).length)).sum := by
  refine ⟨?_, ?_, length_flatMap_eq_sum f (List.range total)⟩
  · unfold combine_chunks_local
    have h := combineLocalLoop_all_present vid out f (List.range total)
      (setFile st out []) []
      (getFile_setFile_self st out [])
      (fun j hj => by
        rw [getFile_setFile_ne _ _ _ _ (hout j (List.mem_range.mp hj))]
        exact hall j (List.mem_range.mp hj))
      (fun j hj => hout j (List.mem_range.mp hj))
    simpa using h
  · unfold combine_chunks_gcs
    rw [firstMissingChunk_none st vid (List.range total)
      (fun i hi => by rw [hall i (List.mem_range.mp hi)]; rfl)]
    refine ⟨rfl, ?_⟩
    rw [getFile_setFile_self]
    congr 1
    refine flatMap_congr_mem _ f (List.range total) (fun i hi => ?_)
    rw [hall i (List.mem_range.mp hi)]
    rfl

/-- C4 witness: the theorem applied to a store holding chunks `[1, 2]`
and `[3]` at indices 0 and 1. -/
theorem combine_chunks_concatenates_witness :
    ((combine_chunks_local [(chunkPath "x" 0, [1, 2]), (chunkPath "x" 1, [3])]
          "x" 2 "videos/x/src.mp4").2 = none ∧
      getFile (combine_chunks_local [(chunkPath "x" 0, [1, 2]), (chunkPath "x" 1, [3])]
          "x" 2 "videos/x/src.mp4").1 "videos/x/src.mp4"
        = some ((List.range 2).flatMap (fun i => if i = 0 then [1, 2] else [3]))) ∧
    ((combine_chunks_gcs [(chunkPath "x" 0, [1, 2]), (chunkPath "x" 1, [3])]
          "x" 2 "videos/x/src.mp4").2 = none ∧
      getFile (combine_chunks_gcs [(chunkPath "x" 0, [1, 2]), (chunkPath "x" 1, [3])]
          "x" 2 "videos/x/src.mp4").1 "videos/x/src.mp4"
        = some ((List.range 2).flatMap (fun i => if i = 0 then [1, 2] else [3]))) ∧
    ((List.range 2).flatMap (fun i => if i = 0 then [1, 2] else [3])).length
      = ((List.range 2).map (fun i =>
          ((fun i => if i = 0 then [1, 2] else [3]) i).length)).sum :=
  combine_chunks_concatenates [(chunkPath "x" 0, [1, 2]), (chunkPath "x" 1, [3])]
    "x" 2 "videos/x/src.mp4" (fun i => if i = 0 then [1, 2] else [3])
    (by decide) (by decide)

/-- C6 counterexample: feeding the master-playlist generator two
variants in descending bandwidth order yields a playlist whose
`BANDWIDTH=` values appear as `[800000, 300000]` — not ascending — so
the output order is NOT ascending "regardless of the order of the input
variant list". -/
theorem master_playlist_not_sorted_cex :
    bandwidthsInPlaylist (generate_hls_master_playlist
        [⟨800000, "640x360", "360p"⟩, ⟨300000, "426x240", "240p"⟩])
      = [800000, 300000]
    ∧ ¬ List.Sorted (· ≤ ·) ([800000, 300000] : List Nat) := by
  refine ⟨by decide, by decide⟩

/-- C6 (amended): neither the generator nor `generate_manifests` sorts:
the master playlist emits the variant entries exactly in input order,
and `generate_manifests` assembles both the HLS variant list and the
DASH adaptation-set list in the quality-ladder's configured order
(filtered to the generated qualities) — the same order for both. The
output is ascending in bandwidth only because the default ladder is;
for the default ladder it is ascending for every generated subset. -/
theorem master_playlist_order_is_ladder_order :
    (∀ (variants : List HlsVariant),
        hlsMasterLines variants
          = ["#EXTM3U", "#EXT-X-VERSION:3"]
            ++ variants.flatMap (fun v => [streamInfLine v, v.name ++ ".m3u8"])) ∧
    (∀ (profiles : List QualityProfile) (generated : List String),
        (hlsVariantsFor profiles generated).map (·.bandwidth)
          = dashAdaptationBandwidthsFor profiles generated) ∧
    (∀ (generated : List String),
        List.Sorted (· ≤ ·)
          ((hlsVariantsFor defaultQualityProfiles generated).map (·.bandwidth))) := by
  refine ⟨?_, ?_, ?_⟩
  · intro variants
    exact foldl_append_pair _ _ variants _
  · intro profiles generated
    unfold hlsVariantsFor dashAdaptationBandwidthsFor
    rw [foldl_filter_map (fun q : QualityProfile => generated.contains q.name)
          (fun q : QualityProfile => (⟨parseBitrate q.bitrate, q.resolution, q.name⟩ : HlsVariant)),
        foldl_filter_map (fun q : QualityProfile => generated.contains q.name)
          (fun q : QualityProfile => parseBitrate q.bitrate)]
    simp [List.map_map]
  · intro generated
    unfold hlsVariantsFor
    rw [foldl_filter_map (fun q : QualityProfile => generated.contains q.name)
          (fun q : QualityProfile => (⟨parseBitrate q.bitrate, q.resolution, q.name⟩ : HlsVariant))]
    simp only [List.nil_append, List.map_map]
    refine List.pairwise_map.mpr ?_
    refine List.Pairwise.filter _ ?_
    have hbase : List.Pairwise
        (fun a b : QualityProfile => parseBitrate a.bitrate ≤ parseBitrate b.bitrate)
        defaultQualityProfiles := by decide
    exact hbase

/-- C7 (confirmed): for a non-empty segment list, the variant playlist
is exactly the header `#EXTM3U`, `#EXT-X-VERSION:3`,
`#EXT-X-TARGETDURATION:` with the ceiling of the maximum segment
duration, `#EXT-X-MEDIA-SEQUENCE:0`, then per segment — in input
order — `#EXTINF:` with the duration to six decimal places and the
segment filename, terminated by `#EXT-X-ENDLIST`; the value under the
ceiling really is the maximum of the segment durations. -/
theorem variant_playlist_structure (segs : List HlsSegment) (h : segs ≠ []) :
    generate_hls_variant_playlist segs
      = some (String.intercalate "\n"
          (["#EXTM3U", "#EXT-X-VERSION:3",
            "#EXT-X-TARGETDURATION:"
              ++ toString (ceilSeconds ((hlsMaxDuration segs).getD 0)),
            "#EXT-X-MEDIA-SEQUENCE:0"]
            ++ segs.flatMap (fun x => ["#EXTINF:" ++ fmt6 x.duration ++ ",", x.filename])
            ++ ["#EXT-X-ENDLIST"]))
    ∧ (hlsMaxDuration segs).getD 0 ∈ segs.map (·.duration)
    ∧ ∀ x ∈ segs, x.duration ≤ (hlsMaxDuration segs).getD 0 := by
  cases segs with
  | nil => exact absurd rfl h
  | cons s rest =>
      have hfold : rest.foldl (fun a x => max a x.duration) s.duration
          = (rest.map (·.duration)).foldl (fun m y => max m y) s.duration := by
        rw [List.foldl_map]
      refine ⟨?_, ?_, ?_⟩
      · have hmax : hlsMaxDuration (s :: rest)
            = some (rest.foldl (fun a x => max a x.duration) s.duration) := rfl
        unfold generate_hls_variant_playlist hlsSegmentLines
        rw [hmax]
        dsimp only
        rw [foldl_append_pair (fun x : HlsSegment => "#EXTINF:" ++ fmt6 x.duration ++ ",")
            (fun x : HlsSegment => x.filename) (s :: rest)]
        rfl
      · simp only [hlsMaxDuration, Option.getD_some, hfold]
        rcases foldl_max_mem (rest.map (·.duration)) s.duration with hm | hm
        · rw [hm]; exact List.mem_cons_self _ _
        · exact List.mem_cons_of_mem _ hm
      · intro x hx
        simp only [hlsMaxDuration, Option.getD_some, hfold]
        rcases List.mem_cons.mp hx with hh | hh
        · subst hh; exact init_le_foldl_max (rest.map (·.duration)) x.duration
        · exact le_foldl_max (rest.map (·.duration)) s.duration x.duration
            (List.mem_map_of_mem (·.duration) hh)

/-- C7 witness: the theorem at durations `[6.0, 6.0, 5.42]` seconds, and
the explicit playlist it denotes — whose target duration line is
`#EXT-X-TARGETDURATION:6`. -/
theorem variant_playlist_structure_witness :
    ([⟨6000000, "segment_000.ts"⟩, ⟨6000000, "segment_001.ts"⟩,
        ⟨5420000, "segment_002.ts"⟩] : List HlsSegment) ≠ []
    ∧ (generate_hls_variant_playlist
          [⟨6000000, "segment_000.ts"⟩, ⟨6000000, "segment_001.ts"⟩,
            ⟨5420000, "segment_002.ts"⟩]
        = some (String.intercalate "\n"
            (["#EXTM3U", "#EXT-X-VERSION:3",
              "#EXT-X-TARGETDURATION:"
                ++ toString (ceilSeconds ((hlsMaxDuration
                    [⟨6000000, "segment_000.ts"⟩, ⟨6000000, "segment_001.ts"⟩,
                      ⟨5420000, "segment_002.ts"⟩]).getD 0)),
              "#EXT-X-MEDIA-SEQUENCE:0"]
              ++ ([⟨6000000, "segment_000.ts"⟩, ⟨6000000, "segment_001.ts"⟩,
                    ⟨5420000, "segment_002.ts"⟩] : List HlsSegment).flatMap
                  (fun x => ["#EXTINF:" ++ fmt6 x.duration ++ ",", x.filename])
              ++ ["#EXT-X-ENDLIST"]))
        ∧ (hlsMaxDuration [⟨6000000, "segment_000.ts"⟩, ⟨6000000, "segment_001.ts"⟩,
              ⟨5420000, "segment_002.ts"⟩]).getD 0
            ∈ ([⟨6000000, "segment_000.ts"⟩, ⟨6000000, "segment_001.ts"⟩,
                  ⟨5420000, "segment_002.ts"⟩] : List HlsSegment).map (·.duration)
        ∧ ∀ x ∈ ([⟨6000000, "segment_000.ts"⟩, ⟨6000000, "segment_001.ts"⟩,
              ⟨5420000, "segment_002.ts"⟩] : List HlsSegment),
            x.duration ≤ (hlsMaxDuration [⟨6000000, "segment_000.ts"⟩,
                ⟨6000000, "segment_001.ts"⟩, ⟨5420000, "segment_002.ts"⟩]).getD 0)
    ∧ "#EXT-X-TARGETDURATION:"
          ++ toString (ceilSeconds ((hlsMaxDuration
              [⟨6000000, "segment_000.ts"⟩, ⟨6000000, "segment_001.ts"⟩,
                ⟨5420000, "segment_002.ts"⟩]).getD 0))
        = "#EXT-X-TARGETDURATION:6" :=
  ⟨by decide, variant_playlist_structure _ (by decide), by decide⟩

theorem dashGo_map_index (sd : Nat) : ∀ (probed : List (Option Nat)) (idx st : Nat),
    (dashSegmentsGo sd probed idx st).map (·.index) = List.range' idx probed.length
  | [], _, _ => rfl
  | p :: rest, idx, st => by
      show idx :: (dashSegmentsGo sd rest (idx + 1) (st + effDurMs p sd)).map (·.index)
          = List.range' idx (rest.length + 1)
      rw [dashGo_map_index sd rest (idx + 1) (st + effDurMs p sd),
        List.range'_succ idx rest.length 1]

theorem dashGo_chain (sd : Nat) : ∀ (probed : List (Option Nat)) (idx st : Nat),
    List.Chain' (fun a b => b.start = a.start + a.duration)
      (dashSegmentsGo sd probed idx st)
  | [], _, _ => List.chain'_nil
  | [_], _, _ => List.chain'_singleton _
  | p :: p' :: rest, idx, st =>
      List.chain'_cons.mpr
        ⟨rfl, dashGo_chain sd (p' :: rest) (idx + 1) (st + effDurMs p sd)⟩

theorem dashGo_chain_lt (sd : Nat) : ∀ (probed : List (Option Nat)) (idx st : Nat),
    (∀ p ∈ probed, 0 < effDurMs p sd) →
    List.Chain' (fun a b : DashSeg => a.start < b.start)
      (dashSegmentsGo sd probed idx st)
  | [], _, _, _ => List.chain'_nil
  | [_], _, _, _ => List.chain'_singleton _
  | p :: p' :: rest, idx, st, hpos =>
      List.chain'_cons.mpr
        ⟨Nat.lt_add_of_pos_right (hpos p (List.mem_cons_self _ _)),
         dashGo_chain_lt sd (p' :: rest) (idx + 1) (st + effDurMs p sd)
           (fun x hx => hpos x (List.mem_cons_of_mem p hx))⟩

/-- C8 (confirmed, given positive effective segment durations — the
fallback is `segment_duration * 1000` and real probed segment durations
are positive): the collected DASH segments are numbered `1, 2, …`, the
first start time is 0, each start time is the previous start plus the
previous duration, and hence the `t` attributes of the emitted
`SegmentTimeline` `S` elements are strictly ascending. -/
theorem dash_timeline_contiguous (probed : List (Option Nat)) (segment_duration : Nat)
    (hpos : ∀ p ∈ probed, 0 < effDurMs p segment_duration) :
    (dashTranscodeSegments probed segment_duration).map (·.index)
        = List.range' 1 probed.length
    ∧ (∀ (s0 : DashSeg) (tl : List DashSeg),
        dashTranscodeSegments probed segment_duration = s0 :: tl → s0.start = 0)
    ∧ List.Chain' (fun a b => b.start = a.start + a.duration)
        (dashTranscodeSegments probed segment_duration)
    ∧ List.Chain' (· < ·)
        ((mpdSegmentTimelineS (dashTranscodeSegments probed segment_duration)).map
          Prod.fst) := by
  refine ⟨dashGo_map_index segment_duration probed 1 0, ?_,
    dashGo_chain segment_duration probed 1 0, ?_⟩
  · intro s0 tl hcons
    cases probed with
    | nil => exact absurd hcons (by simp [dashTranscodeSegments, dashSegmentsGo])
    | cons p rest =>
        have heq : dashTranscodeSegments (p :: rest) segment_duration
            = ⟨1, 0, effDurMs p segment_duration⟩
              :: dashSegmentsGo segment_duration rest (1 + 1)
                  (0 + effDurMs p segment_duration) := rfl
        rw [heq] at hcons
        cases hcons
        rfl
  · have hmap : (mpdSegmentTimelineS (dashTranscodeSegments probed segment_duration)).map
        Prod.fst = (dashTranscodeSegments probed segment_duration).map (·.start) := by
      simp [mpdSegmentTimelineS, List.map_map]
    rw [hmap, List.chain'_map]
    exact dashGo_chain_lt segment_duration probed 1 0 hpos

/-- C8 witness: the theorem at probe outcomes `[4000 ms, failed,
3500 ms]` with a 4-second nominal segment duration. -/
theorem dash_timeline_contiguous_witness :
    (dashTranscodeSegments [some 4000, none, some 3500] 4).map (·.index)
        = List.range' 1 3
    ∧ (∀ (s0 : DashSeg) (tl : List DashSeg),
        dashTranscodeSegments [some 4000, none, some 3500] 4 = s0 :: tl → s0.start = 0)
    ∧ List.Chain' (fun a b => b.start = a.start + a.duration)
        (dashTranscodeSegments [some 4000, none, some 3500] 4)
    ∧ List.Chain' (· < ·)
        ((mpdSegmentTimelineS (dashTranscodeSegments [some 4000, none, some 3500] 4)).map
          Prod.fst) :=
  dash_timeline_contiguous [some 4000, none, some 3500] 4 (by decide)

/-- C9 counterexample: two stalled records; the per-record operations
fail on the first. The sweep aborts with the storage error, returns no
recovered ids, and the second record — eligible, since
`"2024-01-02" > "2025"` is false — is never handled, contradicting "a
failure while handling one record does not abort the sweep". -/
theorem janitor_abort_cex :
    recover_stalled_processing
        [⟨"v1", "2024-01-01", "", false⟩, ⟨"v2", "2024-01-02", "", false⟩] "2025"
        (fun id => if id = "v1" then some .storageError else none)
      = ([], some .storageError)
    ∧ pyStrLt "2025" "2024-01-02" = false := by
  refine ⟨by decide, by decide⟩

theorem recoverStalledGo_append (stall : String) (ops : String → Option JanitorErr)
    (v : JanitorVideo) (rest : List JanitorVideo) (e : JanitorErr)
    (hv : pyStrLt stall v.updated_at = false) (hf : ops v.id = some e) :
    ∀ (pre : List JanitorVideo) (acc : List String),
      (∀ w ∈ pre, pyStrLt stall w.updated_at = true ∨ ops w.id = none) →
      recoverStalledGo stall ops (pre ++ v :: rest) acc
        = (acc ++ (pre.filter (fun w => !pyStrLt stall w.updated_at)).map (·.id), some e)
  | [], acc, _ => by
      simp only [List.nil_append, recoverStalledGo, hv, Bool.false_eq_true,
        if_false, hf, List.filter_nil, List.map_nil, List.append_nil]
  | w :: pre', acc, hpre => by
      simp only [List.cons_append, recoverStalledGo]
      rcases hpre w (List.mem_cons_self w pre') with hskip | hok
      · rw [hskip]
        simp only [if_true, List.filter_cons, hskip, Bool.not_true, Bool.false_eq_true,
          if_false]
        exact recoverStalledGo_append stall ops v rest e hv hf pre' acc
          (fun x hx => hpre x (List.mem_cons_of_mem w hx))
      · cases hskip : pyStrLt stall w.updated_at with
        | true =>
            simp only [if_true, List.filter_cons, hskip, Bool.not_true,
              Bool.false_eq_true, if_false]
            exact recoverStalledGo_append stall ops v rest e hv hf pre' acc
              (fun x hx => hpre x (List.mem_cons_of_mem w hx))
        | false =>
            simp only [Bool.false_eq_true, if_false, hok, List.filter_cons, hskip,
              Bool.not_false, if_true, List.map_cons]
            simpa [List.append_assoc] using
              recoverStalledGo_append stall ops v rest e hv hf pre' (acc ++ [w.id])
                (fun x hx => hpre x (List.mem_cons_of_mem w hx))

theorem cleanupExpiredGo_append (exp : String) (ops : String → Option JanitorErr)
    (v : JanitorVideo) (rest : List JanitorVideo) (e : JanitorErr)
    (hv : pyStrLt exp v.created_at = false) (hvc : v.allow_cleanup = true)
    (hf : ops v.id = some e) :
    ∀ (pre : List JanitorVideo) (acc : List String),
      (∀ w ∈ pre, pyStrLt exp w.created_at = true ∨ w.allow_cleanup = false ∨
        ops w.id = none) →
      cleanupExpiredGo exp ops (pre ++ v :: rest) acc
        = (acc ++ (pre.filter
            (fun w => !pyStrLt exp w.created_at && w.allow_cleanup)).map (·.id), some e)
  | [], acc, _ => by
      simp only [List.nil_append, cleanupExpiredGo, hv, Bool.false_eq_true, if_false,
        hvc, Bool.not_true, hf, List.filter_nil, List.map_nil, List.append_nil]
  | w :: pre', acc, hpre => by
      simp only [List.cons_append, cleanupExpiredGo]
      have htail : ∀ x ∈ pre', pyStrLt exp x.created_at = true ∨ x.allow_cleanup = false ∨
          ops x.id = none := fun x hx => hpre x (List.mem_cons_of_mem w hx)
      cases hskip : pyStrLt exp w.created_at with
      | true =>
          simp only [if_true, List.filter_cons, hskip, Bool.not_true, Bool.false_and,
            Bool.false_eq_true, if_false]
          exact cleanupExpiredGo_append exp ops v rest e hv hvc hf pre' acc htail
      | false =>
          cases hwk : w.allow_cleanup with
          | false =>
              simp only [Bool.false_eq_true, if_false, hwk, Bool.not_false, if_true,
                List.filter_cons, hskip, Bool.and_false]
              exact cleanupExpiredGo_append exp ops v rest e hv hvc hf pre' acc htail
          | true =>
              rcases hpre w (List.mem_cons_self w pre') with h1 | h2 | h3
              · rw [hskip] at h1; cases h1
              · rw [hwk] at h2; cases h2
              · simp only [Bool.false_eq_true, if_false, hwk, Bool.not_true, h3,
                  List.filter_cons, hskip, Bool.not_false, Bool.true_and, if_true,
                  List.map_cons]
                simpa [List.append_assoc] using
                  cleanupExpiredGo_append exp ops v rest e hv hvc hf pre'
                    (acc ++ [w.id]) htail

/-- C9 (amended): the sweeps are not per-record best-effort — the first
per-record failure aborts them. For both `recover_stalled_processing`
and `cleanup_expired_content`, if every eligible record before `v`
succeeds and `v`'s per-record operations fail, the sweep stops at `v`
with the storage error: it reports only the records processed before
`v`, and no record after `v` is handled. -/
theorem janitor_sweep_aborts_on_failure :
    (∀ (pre : List JanitorVideo) (v : JanitorVideo) (rest : List JanitorVideo)
        (stall : String) (ops : String → Option JanitorErr) (e : JanitorErr),
        (∀ w ∈ pre, pyStrLt stall w.updated_at = true ∨ ops w.id = none) →
        pyStrLt stall v.updated_at = false → ops v.id = some e →
          recover_stalled_processing (pre ++ v :: rest) stall ops
            = ((pre.filter (fun w => !pyStrLt stall w.updated_at)).map (·.id), some e)) ∧
    (∀ (pre : List JanitorVideo) (v : JanitorVideo) (rest : List JanitorVideo)
        (exp : String) (ops : String → Option JanitorErr) (e : JanitorErr),
        (∀ w ∈ pre, pyStrLt exp w.created_at = true ∨ w.allow_cleanup = false ∨
          ops w.id = none) →
        pyStrLt exp v.created_at = false → v.allow_cleanup = true → ops v.id = some e →
          cleanup_expired_content (pre ++ v :: rest) exp ops
            = ((pre.filter
                (fun w => !pyStrLt exp w.created_at && w.allow_cleanup)).map (·.id),
               some e)) := by
  constructor
  · intro pre v rest stall ops e hpre hv hf
    have h := recoverStalledGo_append stall ops v rest e hv hf pre [] hpre
    simpa [recover_stalled_processing] using h
  · intro pre v rest exp ops e hpre hv hvc hf
    have h := cleanupExpiredGo_append exp ops v rest e hv hvc hf pre [] hpre
    simpa [cleanup_expired_content] using h

/-- C9 witness: both sweeps applied to a concrete failing record — one
skipped record before the failing one for the stall sweep, none for the
expiry sweep. -/
theorem janitor_sweep_aborts_on_failure_witness :
    recover_stalled_processing
        (([⟨"a", "2026-01-01", "", false⟩] : List JanitorVideo)
          ++ ⟨"b", "2020-01-01", "", false⟩ :: [])
        "2025" (fun _ => some .storageError)
      = ((([⟨"a", "2026-01-01", "", false⟩] : List JanitorVideo).filter
            (fun w => !pyStrLt "2025" w.updated_at)).map (·.id), some .storageError)
    ∧ cleanup_expired_content
        (([] : List JanitorVideo) ++ ⟨"c", "", "2019-01-01", true⟩ :: [])
        "2025" (fun _ => some .storageError)
      = ((([] : List JanitorVideo).filter
            (fun w => !pyStrLt "2025" w.created_at && w.allow_cleanup)).map (·.id),
         some .storageError) :=
  ⟨janitor_sweep_aborts_on_failure.1 [⟨"a", "2026-01-01", "", false⟩]
      ⟨"b", "2020-01-01", "", false⟩ [] "2025" (fun _ => some .storageError)
      .storageError (by decide) (by decide) rfl,
   janitor_sweep_aborts_on_failure.2 [] ⟨"c", "", "2019-01-01", true⟩ [] "2025"
      (fun _ => some .storageError) .storageError (by decide) (by decide) rfl rfl⟩

/-- C10 (confirmed): both HLS playlist generators have no value on the
empty segment list (Python's `max` over an empty sequence raises
`ValueError`), and produce a playlist for every non-empty one. -/
theorem playlist_generators_need_nonempty :
    generate_hls_variant_playlist [] = none
    ∧ (∀ (n : Nat), generate_hls_live_playlist [] n = none)
    ∧ (∀ (s : HlsSegment) (rest : List HlsSegment),
        (generate_hls_variant_playlist (s :: rest)).isSome = true)
    ∧ (∀ (s : HlsSegment) (rest : List HlsSegment) (n : Nat),
        (generate_hls_live_playlist (s :: rest) n).isSome = true) :=
  ⟨rfl, fun _ => rfl, fun _ _ => rfl, fun _ _ _ => rfl⟩

end Stream1
